import Mathlib

/-!
Verification development for the uefi-md5sum boot-time integrity checker
(`src/boot.c`).  The program parses a manifest of MD5 digests, re-hashes
every listed file, and decides whether to chain-load the original boot
loader.  This file gives a shallow embedding of the verification loop of
`efi_main` (boot.c:436-488), the exit state machine `ExitProcess`
(boot.c:172-230), the failure reporting of `PrintFailedEntry`
(boot.c:98-124) and the progress-bar functions `InitProgress` /
`PrintProgress` (boot.c:277-347), together with theorems about them.

Collaborators that are not part of `src/` (the manifest parser `Parse`,
`HashFile`, `Utf8ToUcs2`, console and boot services) are modelled as
oracle functions supplied in an environment record; the embedding follows
the C control flow of `boot.c` over those oracles.  Machine integers are
modelled as `Nat` with explicit `% 256` where `UINT8` overflow matters;
`EFI_STATUS` is a 64-bit value whose most significant bit marks an error.
-/

/-- The `EFI_ERROR(Status)` test on a 64-bit platform: the most significant bit of
the status word is set.  All genuine EFI status values are below `2 ^ 64`. -/
def EFI_ERROR (s : Nat) : Bool := decide (2 ^ 63 ≤ s)

/-- The `EFI_SUCCESS` status. -/
def EFI_SUCCESS : Nat := 0

/-- The `EFI_CRC_ERROR` status (`ENCODE_ERROR(27)`), the status `efi_main` assigns to a
digest mismatch (boot.c:473). -/
def EFI_CRC_ERROR : Nat := 2 ^ 63 + 27

/-- The `EFI_NOT_FOUND` status (`ENCODE_ERROR(14)`), the status `HashFile` propagates
for a file that does not exist on the volume. -/
def EFI_NOT_FOUND : Nat := 2 ^ 63 + 14

/-- The `EFI_INVALID_PARAMETER` status (`ENCODE_ERROR(2)`). -/
def EFI_INVALID_PARAMETER : Nat := 2 ^ 63 + 2

/-- One step of the hexascii-to-binary conversion of `efi_main`
(boot.c:450-451): `ExpectedHash[i/2] <<= 4; ExpectedHash[i/2] |= c >= 'a' ?
(c - 'a' + 0x0A) : c - '0';` with `ExpectedHash[i/2]` a `UINT8` (hence the
`% 256` truncations at each store).  `c` holds a parse-validated hex
character (the code asserts `IsValidHexAscii(c)`), so it is an ASCII value
at or above `'0'` and Nat subtraction agrees with the C arithmetic. -/
def hexStep (h c : Nat) : Nat :=
  ((h * 16) % 256 ||| (if 97 ≤ c then c - 97 + 10 else c - 48)) % 256

/-- The hexascii-to-binary loop of `efi_main` (boot.c:445-452): 32
iterations (`MD5_HASHSIZE * 2`), iteration `i` folding character `i` of the
digest text into byte `i / 2` of `ExpectedHash`, which `ZeroMem` cleared
beforehand.  The first argument is the loop counter `i` rendered as
remaining fuel (`32 - i`) so that the recursion is structural. -/
def hexLoopGo (hash : List Nat) : Nat → Nat → List Nat → List Nat
  | 0, _, acc => acc
  | fuel + 1, i, acc =>
      hexLoopGo hash fuel (i + 1)
        (acc.set (i / 2) (hexStep (acc.getD (i / 2) 0) (hash.getD i 0)))

/-- The `ExpectedHash` value as computed by `efi_main` from the 32 stored digest
characters of one manifest entry (boot.c:445-452). -/
def hashToBytes (hash : List Nat) : List Nat :=
  hexLoopGo hash 32 0 (List.replicate 16 0)

/-- The same conversion expressed two characters at a time: byte `j` of the
result is obtained by folding characters `2*j` and `2*j + 1` into an
initially zero byte, exactly as the source loop does (iterations `2*j` and
`2*j + 1` are the only ones touching `ExpectedHash[j]`). -/
def hexPairs : List Nat → List Nat
  | c0 :: c1 :: rest => hexStep (hexStep 0 c0) c1 :: hexPairs rest
  | _ => []

/-- Modelled from the spec: the value a hexadecimal digit character denotes,
case-insensitively ("each a valid hexadecimal digit (case-insensitive)").
This is the specification-side meaning, used to compare against the
source-side conversion `hashToBytes`. -/
def specHexVal (c : Nat) : Nat :=
  if 48 ≤ c ∧ c ≤ 57 then c - 48
  else if 97 ≤ c then c - 87
  else c - 55

/-- Modelled from the spec: the 16-byte digest value denoted by a 32
character hex string, case-insensitively (big-endian nibbles, as md5sum
manifests are written). -/
def specHexDenote : List Nat → List Nat
  | c0 :: c1 :: rest => (16 * specHexVal c0 + specHexVal c1) :: specHexDenote rest
  | _ => []

/-- A lowercase hexadecimal digit character (`0`-`9`, `a`-`f`). -/
def isLowerHexDigit (c : Nat) : Bool :=
  decide ((48 ≤ c ∧ c ≤ 57) ∨ (97 ≤ c ∧ c ≤ 102))

/-- Modelled from the spec: `IsValidHexAscii` lives in `boot.h`, which is
not among the provided sources; the spec says digest characters are valid
hexadecimal digits accepted case-insensitively, so this accepts both
lowercase and uppercase letters. -/
def isHexDigitSpec (c : Nat) : Bool :=
  decide ((48 ≤ c ∧ c ≤ 57) ∨ (97 ≤ c ∧ c ≤ 102) ∨ (65 ≤ c ∧ c ≤ 70))

/-- One character of the fallback path rendering built by `efi_main` when
`Utf8ToUcs2` fails (boot.c:460-465): `c` is the path byte read into a
(signed) `CHAR8`; bytes with `c < ' ' || c > 0x80` are replaced by `'?'`,
and the kept character is stored via `(CHAR16)c` (on the kept branch
`32 ≤ c ≤ 127`, so the cast stores the byte value itself). -/
def fallbackChar (b : Nat) : Nat :=
  let c : Int := if b < 128 then (b : Int) else (b : Int) - 256
  if c < 32 ∨ 128 < c then 63 else b

/-- The whole fallback rendering of an unconvertible path (boot.c:459-466).
Paths are modelled as the byte content of the NUL-terminated string, without
the terminator and with no embedded NUL (`AsciiStrLen` is the list length). -/
def fallbackPath (p : List Nat) : List Nat := p.map fallbackChar

/-- One manifest entry as produced by `Parse` (`HASH_ENTRY` of boot.h):
`hash` is the 32-character digest text, `path` the stored UTF-8 path bytes. -/
structure HashEntry where
  hash : List Nat
  path : List Nat
deriving DecidableEq

/-- The collaborators the verification loop of `efi_main` calls into, none
of which are defined in `src/`:
* `keyAvail i` — whether `gST->ConIn->ReadKeyStroke` returns something other
  than `EFI_NOT_READY` at the cancellation check that opens iteration `i`
  (boot.c:438);
* `utf8ToUcs2 p` — the status and output buffer of `Utf8ToUcs2` on a stored
  path (boot.c:455);
* `hashFile p` — the status and `ComputedHash` buffer of `HashFile` on a
  converted path (boot.c:470); on success the buffer holds 16 bytes. -/
structure Env where
  keyAvail : Nat → Bool
  utf8ToUcs2 : List Nat → Nat × List Nat
  hashFile : List Nat → Nat × List Nat

/-- The per-entry verification outcome, in the vocabulary of the spec's
`VerificationOutcome`: `failed s p` records the EFI status `s` the entry
failed with (`EFI_CRC_ERROR` for a hash mismatch, the underlying read error
for an unreadable file, the conversion status for an unconvertible path)
and the display path `p`. -/
inductive Outcome where
  | passed
  | failed (status : Nat) (displayPath : List Nat)
deriving DecidableEq

/-- Whether an outcome is a failure. -/
def Outcome.isFailed : Outcome → Bool
  | .passed => false
  | .failed _ _ => true

/-- The failure line printed by `PrintFailedEntry` (boot.c:119-123): a
digest mismatch (`(Status & 0x7FFFFFFF) == 27`) gets the explicit
"MD5 Checksum Error" message, everything else the generic `[%d] %r`
rendering with the masked status code. -/
inductive FailMessage where
  | checksum (path : List Nat)
  | generic (path : List Nat) (code : Nat)
deriving DecidableEq

/-- The path truncation of `PrintFailedEntry` (boot.c:109-110): a path
longer than 80 characters is cut, in place, to exactly 80 characters. -/
def truncate80 (p : List Nat) : List Nat :=
  if 80 < p.length then p.take 80 else p

/-- The message `PrintFailedEntry` prints for a failed entry, after the
in-place truncation (boot.c:109-123). -/
def renderFail (status : Nat) (path : List Nat) : FailMessage :=
  if status &&& 0x7FFFFFFF = 27 then .checksum (truncate80 path)
  else .generic (truncate80 path) (status &&& 0x7FFFFFFF)

/-- Full model of `PrintFailedEntry` (boot.c:98-124): given the status, the
caller's path buffer (`none` for `NULL`) and returns the buffer content
after the call together with the printed line (`none` when nothing is
printed).  A non-error status or a `NULL` path returns immediately; console
positioning and colours are pure display and are not modelled. -/
def PrintFailedEntry (status : Nat) (path : Option (List Nat)) :
    Option (List Nat) × Option FailMessage :=
  match path with
  | none => (none, none)
  | some p =>
      if EFI_ERROR status = true then
        (some (truncate80 p), some (renderFail status p))
      else (some p, none)

/-- The status and display path `efi_main` computes for one manifest entry
(boot.c:444-474): decode the expected digest, convert the path; on
conversion failure keep the conversion status and build the fallback
rendering; otherwise hash the file and turn a successful hash whose digest
differs from the expected one into `EFI_CRC_ERROR`. -/
def processEntry (env : Env) (e : HashEntry) : Nat × List Nat :=
  if EFI_ERROR (env.utf8ToUcs2 e.path).1 = true then
    ((env.utf8ToUcs2 e.path).1, fallbackPath e.path)
  else
    (if (env.hashFile (env.utf8ToUcs2 e.path).2).1 = 0 ∧
        (env.hashFile (env.utf8ToUcs2 e.path).2).2 ≠ hashToBytes e.hash
      then EFI_CRC_ERROR
      else (env.hashFile (env.utf8ToUcs2 e.path).2).1,
     (env.utf8ToUcs2 e.path).2)

/-- The outcome recorded for one entry: failed exactly when the status the
loop ends the entry with is an EFI error (boot.c:477). -/
def entryOut (env : Env) (e : HashEntry) : Outcome :=
  let sp := processEntry env e
  if EFI_ERROR sp.1 = true then .failed sp.1 sp.2 else .passed

/-- Whether an entry fails verification. -/
def entryFails (env : Env) (e : HashEntry) : Bool :=
  EFI_ERROR (processEntry env e).1

/-- Aggregate result of the verification loop, the spec's run summary:
`processed` is the loop index `Index` at exit, `numFailed` the `NumFailed`
counter, `lastStatus` the `Status` variable at loop exit, `cancelled`
whether the loop was left through the keystroke check, `outcomes` the
per-entry outcomes in manifest order (one per processed entry),
`progressCalls` the arguments of the in-loop `PrintProgress` calls and
`failLines` the lines printed by `PrintFailedEntry`. -/
structure RunSummary where
  processed : Nat
  numFailed : Nat
  lastStatus : Nat
  cancelled : Bool
  outcomes : List Outcome
  progressCalls : List (Nat × Nat)
  failLines : List FailMessage
deriving DecidableEq

/-- The state update of one completed loop iteration of `efi_main`
(boot.c:441-478): report progress, process the entry, record the failure
(incrementing `NumFailed`) when the status is an error. -/
def stepSummary (env : Env) (idx : Nat) (e : HashEntry) (total : Nat)
    (st : RunSummary) : RunSummary :=
  let sp := processEntry env e
  { processed := idx + 1
    numFailed := if EFI_ERROR sp.1 = true then st.numFailed + 1 else st.numFailed
    lastStatus := sp.1
    cancelled := st.cancelled
    outcomes := st.outcomes ++ [entryOut env e]
    progressCalls := st.progressCalls ++ [(idx, total)]
    failLines := st.failLines ++
      (if EFI_ERROR sp.1 = true then [renderFail sp.1 sp.2] else []) }

/-- The verification loop of `efi_main` (boot.c:436-479): at the top of
every iteration the keystroke check runs; if a key is available the loop
breaks immediately (the entry at `idx` and all later ones are left
unprocessed), otherwise the entry is processed and the loop advances. -/
def go (env : Env) (total : Nat) : Nat → List HashEntry → RunSummary → RunSummary
  | _, [], st => st
  | idx, e :: rest, st =>
      if env.keyAvail idx = true then { st with cancelled := true }
      else go env total (idx + 1) rest (stepSummary env idx e total st)

/-- The summary state on entry to the loop: `Index = 0`, `NumFailed = 0`,
`Status = EFI_SUCCESS` (the `Parse` call just succeeded), nothing recorded. -/
def initSummary : RunSummary :=
  { processed := 0, numFailed := 0, lastStatus := 0, cancelled := false
    outcomes := [], progressCalls := [], failLines := [] }

/-- The whole verification loop over a parsed manifest. -/
def runLoop (env : Env) (entries : List HashEntry) : RunSummary :=
  go env entries.length 0 entries initSummary

/-- The final progress report of `efi_main` (boot.c:482): the in-loop
`PrintProgress (Index, NumEntries)` calls followed by one more call with the
counts at loop exit, made even for an empty manifest or a fully cancelled
run. -/
def fullProgressCalls (env : Env) (entries : List HashEntry) : List (Nat × Nat) :=
  (runLoop env entries).progressCalls ++
    [((runLoop env entries).processed, entries.length)]

/-- The status adjustment after the loop (boot.c:492-493): a successful
`Status` with a non-zero `NumFailed` becomes `EFI_CRC_ERROR`. -/
def finalVerifyStatus (st : RunSummary) : Nat :=
  if st.lastStatus = 0 ∧ st.numFailed ≠ 0 then EFI_CRC_ERROR else st.lastStatus

/-- The collaborators `ExitProcess` consumes (boot.c:172-230), none defined
in `src/`: the test-mode flag `IsTestMode` queried at startup, the
`UnicodeChar` of the keystroke the blocking
`while (ReadKeyStroke == EFI_NOT_READY)` prompt loop eventually returns
(boot.c:189), and the statuses of `gBS->LoadImage` / `gBS->StartImage`. -/
structure ExitEnv where
  isTestMode : Bool
  promptKey : Nat
  loadImageStatus : Nat
  startImageStatus : Nat

/-- The externally visible actions of `ExitProcess`, in order of
occurrence: showing the `Proceed with boot? [y/N]` prompt (boot.c:187),
calling `gBS->LoadImage` (boot.c:196), calling `gBS->StartImage`
(boot.c:203), requesting power-off via `ShutDown()` (boot.c:213, which does
not return), and blocking on `WaitForEvent` for the final
`[Press any key to exit]` keystroke (boot.c:223). -/
inductive ExitEvent where
  | promptShown
  | loadAttempted
  | startAttempted
  | shutdownRequested
  | waitedForKey
deriving DecidableEq

/-- The status `ExitProcess` holds after the chain-load attempt
(boot.c:196-204): the `LoadImage` status, replaced by the `StartImage`
status when the load succeeded. -/
def chainStatus (env : ExitEnv) : Nat :=
  if env.loadImageStatus = 0 then env.startImageStatus else env.loadImageStatus

/-- The events of the chain-load attempt: `LoadImage` is always called,
`StartImage` only when the load returned `EFI_SUCCESS` (the interruptible
countdown sleep between them is pure display). -/
def chainEvents (env : ExitEnv) : List ExitEvent :=
  if env.loadImageStatus = 0 then [.loadAttempted, .startAttempted]
  else [.loadAttempted]

/-- The tail of `ExitProcess` (boot.c:211-229): in test mode request
power-off (`ShutDown` does not return, so nothing later is observable);
otherwise, on an error status, block waiting for a keystroke before
returning (non-`EFI_DEBUG` build).  The returned status is unchanged. -/
def exitTail (env : ExitEnv) (status : Nat) (ev : List ExitEvent) :
    Nat × List ExitEvent :=
  if env.isTestMode = true then (status, ev ++ [.shutdownRequested])
  else if EFI_ERROR status = true then (status, ev ++ [.waitedForKey])
  else (status, ev)

/-- Model of `ExitProcess` (boot.c:172-230).  With a chain-load target
(`DevicePath != NULL`): when the incoming status is an error outside test
mode, prompt and wait for one keystroke; any key other than `y`/`Y`
(`0x79`/`0x59`) returns the incoming status at once (boot.c:190-193).
Otherwise — including an error status in test mode, whose guard
`EFI_ERROR(Status) && !IsTestMode` is false — fall through to the
`LoadImage`/`StartImage` attempt, then to the common tail. -/
def ExitProcess (env : ExitEnv) (status : Nat) (hasDevicePath : Bool) :
    Nat × List ExitEvent :=
  if hasDevicePath = true then
    if EFI_ERROR status = true ∧ env.isTestMode = false then
      if env.promptKey ≠ 121 ∧ env.promptKey ≠ 89 then (status, [.promptShown])
      else exitTail env (chainStatus env) (.promptShown :: chainEvents env)
    else exitTail env (chainStatus env) (chainEvents env)
  else exitTail env status []

/-- The complete post-parse pipeline of `efi_main` (boot.c:436-494): run the
verification loop, apply the `NumFailed` status adjustment, and hand the
result to `ExitProcess` together with whether the original boot loader was
resolved to a device path before verification. -/
def efiMainRun (env : Env) (exitEnv : ExitEnv) (entries : List HashEntry)
    (hasDevicePath : Bool) : Nat × List ExitEvent :=
  ExitProcess exitEnv (finalVerifyStatus (runLoop env entries)) hasDevicePath

/-- The console-geometry thresholds of `boot.h` (`COLS_MIN`, `ROWS_MIN`,
`STRING_MAX`, `MARGIN_H`).  `boot.h` is not among the provided sources, so
they are kept as parameters; `efi_main` guarantees `COLS_MIN ≤ Console.Cols
< STRING_MAX` after its clamping (boot.c:388-394). -/
structure Geometry where
  colsMin : Nat
  rowsMin : Nat
  stringMax : Nat
  marginH : Nat

/-- The UEFI text console dimensions queried at startup (boot.c:386-394). -/
structure ConsoleDims where
  cols : Nat
  rows : Nat

/-- The static progress-bar state of boot.c:62-65 (`ProgressLastCol`,
`ProgressInit`, `ProgressYPos`, `ProgressPPos`). -/
structure ProgressVars where
  progressLastCol : Nat
  progressInit : Bool
  progressYPos : Nat
  progressPPos : Nat
deriving DecidableEq

/-- Model of `InitProgress` (boot.c:277-312): clear `ProgressInit`, bail out on a
console that is too small or too large, in test mode, or on a message that
does not fit; otherwise clamp the vertical position, compute the label and
percentage positions and arm the progress bar.  `msgLen` is
`SafeStrLen(Message)`; the rendering itself is pure display. -/
def InitProgress (g : Geometry) (isTestMode : Bool) (con : ConsoleDims)
    (msgLen yPos : Nat) (pv : ProgressVars) : ProgressVars :=
  let pv1 := { pv with progressInit := false }
  if con.cols < g.colsMin ∨ con.rows < g.rowsMin ∨ g.stringMax ≤ con.cols ∨
      isTestMode = true then pv1
  else if con.cols - g.marginH * 2 - 8 < msgLen then pv1
  else
    { progressLastCol := 0
      progressInit := true
      progressYPos := if con.rows - 3 < yPos then con.rows - 3 else yPos
      progressPPos := con.cols / 2 - (msgLen + 6) / 2 + msgLen + 2 }

/-- Model of `PrintProgress` (boot.c:320-347).  After the early-out guard the code
clamps `CurValue` to `MaxValue` and computes `PerMille = (CurValue * 1000) /
MaxValue` and `CurCol = (CurValue * (Cols - MARGIN_H*2)) / MaxValue`; when
`MaxValue = 0` both divide by zero — undefined behavior (a `#DE` fault on
x86), modelled as `none`.  Otherwise the result is the updated static state
(the bar-fill loop advances `ProgressLastCol` while it is below both
`CurCol` and `Cols`, and reaching `MaxValue` disarms the bar) together with
the displayed per-mille figure. -/
def PrintProgress (g : Geometry) (isTestMode : Bool) (con : ConsoleDims)
    (pv : ProgressVars) (curValue maxValue : Nat) :
    Option (ProgressVars × Nat) :=
  if con.cols < g.colsMin ∨ g.stringMax ≤ con.cols ∨ isTestMode = true ∨
      pv.progressInit = false then some (pv, 0)
  else
    let cur := if maxValue < curValue then maxValue else curValue
    if maxValue = 0 then none
    else
      let perMille := cur * 1000 / maxValue
      let curCol := cur * (con.cols - g.marginH * 2) / maxValue
      let newLast :=
        if pv.progressLastCol < curCol ∧ pv.progressLastCol < con.cols then
          min curCol con.cols
        else pv.progressLastCol
      some ({ pv with
                progressLastCol := newLast
                progressInit := if cur = maxValue then false else pv.progressInit },
            perMille)

/-! ### Helper lemmas about the hexascii conversion -/

theorem getD_replicate_zero (n j : Nat) :
    (List.replicate n (0 : Nat)).getD j 0 = 0 := by
  rcases Nat.lt_or_ge j n with h | h
  · simp [List.getD, List.getElem?_replicate, h]
  · simp [List.getD, List.getElem?_replicate, Nat.not_lt.mpr h]

theorem getD_set_self (l : List Nat) (i v : Nat) (h : i < l.length) :
    (l.set i v).getD i 0 = v := by
  simp [List.getD, List.getElem?_set_self h]

theorem getD_set_ne (l : List Nat) (i j v : Nat) (h : i ≠ j) :
    (l.set i v).getD j 0 = l.getD j 0 := by
  simp [List.getD, List.getElem?_set_ne h]

theorem take_set_succ (l : List Nat) (k v : Nat) (h : k < l.length) :
    (l.set k v).take (k + 1) = l.take k ++ [v] := by
  rw [List.set_eq_take_append_cons_drop, if_pos h]
  have hlen : (l.take k).length = k := by
    simp [List.length_take, Nat.min_eq_left (Nat.le_of_lt h)]
  calc (l.take k ++ v :: l.drop (k + 1)).take (k + 1)
      = (l.take k ++ v :: l.drop (k + 1)).take ((l.take k).length + 1) := by
        rw [hlen]
    _ = l.take k ++ (v :: l.drop (k + 1)).take 1 := by
        rw [List.take_append]
    _ = l.take k ++ [v] := by simp

/-- The stride-2 indexed loop `hexLoopGo`, run from iteration `2*k` on an
accumulator whose bytes from position `k` on are still zero, fills the tail
of the accumulator with the pairwise conversion of the remaining
characters. -/
theorem hexLoopGo_pairs (hash : List Nat) (hlen : hash.length = 32) :
    ∀ (n k : Nat) (acc : List Nat), acc.length = 16 → k + n = 16 →
      (∀ j, k ≤ j → acc.getD j 0 = 0) →
      hexLoopGo hash (2 * n) (2 * k) acc =
        acc.take k ++ hexPairs (hash.drop (2 * k)) := by
  intro n
  induction n with
  | zero =>
      intro k acc hacc hk _
      have hk16 : k = 16 := by omega
      subst hk16
      have h1 : acc.take 16 = acc := by
        rw [← hacc, List.take_length]
      have h2 : hash.drop 32 = [] := by
        rw [← hlen, List.drop_length]
      simp [hexLoopGo, h1, h2, hexPairs]
  | succ n ih =>
      intro k acc hacc hk hzero
      have hklt : k < 16 := by omega
      have hkacc : k < acc.length := by omega
      have h2k : 2 * k < hash.length := by omega
      have h2k1 : 2 * k + 1 < hash.length := by omega
      have e1 : 2 * (n + 1) = (2 * n + 1) + 1 := by omega
      have e2 : (2 * k) / 2 = k := by omega
      have e3 : (2 * k + 1) / 2 = k := by omega
      rw [e1]
      show hexLoopGo hash (2 * n + 1) (2 * k + 1)
            ((acc.set ((2 * k) / 2)
              (hexStep (acc.getD ((2 * k) / 2) 0) (hash.getD (2 * k) 0)))) = _
      rw [e2, hzero k (Nat.le_refl k)]
      show hexLoopGo hash (2 * n) (2 * k + 1 + 1)
            (((acc.set k (hexStep 0 (hash.getD (2 * k) 0))).set ((2 * k + 1) / 2)
              (hexStep ((acc.set k (hexStep 0 (hash.getD (2 * k) 0))).getD
                ((2 * k + 1) / 2) 0) (hash.getD (2 * k + 1) 0)))) = _
      rw [e3, getD_set_self acc k _ hkacc, List.set_set]
      have e4 : 2 * k + 1 + 1 = 2 * (k + 1) := by omega
      rw [e4]
      set b := hexStep (hexStep 0 (hash.getD (2 * k) 0)) (hash.getD (2 * k + 1) 0)
        with hb
      rw [ih (k + 1) (acc.set k b) (by simp [List.length_set, hacc]) (by omega)
        (fun j hj => by
          rw [getD_set_ne acc k j b (by omega)]
          exact hzero j (by omega))]
      rw [take_set_succ acc k b hkacc]
      have hdrop : hash.drop (2 * k) =
          hash.getD (2 * k) 0 :: hash.getD (2 * k + 1) 0 :: hash.drop (2 * (k + 1)) := by
        rw [List.drop_eq_getElem_cons h2k, List.drop_eq_getElem_cons (by omega : 2 * k + 1 < hash.length)]
        rw [List.getD_eq_getElem hash 0 h2k, List.getD_eq_getElem hash 0 h2k1]
        have : 2 * k + 1 + 1 = 2 * (k + 1) := by omega
        rw [this]
      rw [hdrop]
      show (acc.take k ++ [b]) ++ hexPairs (hash.drop (2 * (k + 1))) =
          acc.take k ++ (b :: hexPairs (hash.drop (2 * (k + 1))))
      simp

/-- On a full 32-character digest text the source loop computes exactly the
two-characters-at-a-time conversion. -/
theorem hashToBytes_eq_hexPairs (hash : List Nat) (hlen : hash.length = 32) :
    hashToBytes hash = hexPairs hash := by
  have h := hexLoopGo_pairs hash hlen 16 0 (List.replicate 16 0) (by simp)
    (by omega) (fun j _ => getD_replicate_zero 16 j)
  simpa [hashToBytes] using h

theorem specHexVal_lt_16 (c : Nat) (h : isLowerHexDigit c = true) :
    specHexVal c < 16 := by
  simp only [isLowerHexDigit, decide_eq_true_eq] at h
  rcases h with h | h
  · rw [specHexVal, if_pos (by omega)]
    omega
  · rw [specHexVal, if_neg (by omega), if_pos (by omega)]
    omega

theorem hexNibble_eq_specHexVal (c : Nat) (h : isLowerHexDigit c = true) :
    (if 97 ≤ c then c - 97 + 10 else c - 48) = specHexVal c := by
  simp only [isLowerHexDigit, decide_eq_true_eq] at h
  rcases h with h | h
  · rw [if_neg (by omega), specHexVal, if_pos (by omega)]
  · rw [if_pos (by omega), specHexVal, if_neg (by omega), if_pos (by omega)]
    omega

theorem hexStep_combine :
    ∀ m, m < 16 → ∀ a, a < 16 → ((m * 16) % 256 ||| a) % 256 = 16 * m + a := by
  decide

theorem hexStep_zero (c : Nat) (h : isLowerHexDigit c = true) :
    hexStep 0 c = specHexVal c := by
  rw [hexStep, hexNibble_eq_specHexVal c h]
  have hv := specHexVal_lt_16 c h
  have h0 : (0 * 16 % 256 : Nat) = 0 := rfl
  rw [h0, Nat.zero_or, Nat.mod_eq_of_lt (by omega)]

theorem hexStep_pair (c0 c1 : Nat) (h0 : isLowerHexDigit c0 = true)
    (h1 : isLowerHexDigit c1 = true) :
    hexStep (hexStep 0 c0) c1 = 16 * specHexVal c0 + specHexVal c1 := by
  rw [hexStep_zero c0 h0, hexStep, hexNibble_eq_specHexVal c1 h1]
  exact hexStep_combine _ (specHexVal_lt_16 c0 h0) _ (specHexVal_lt_16 c1 h1)

/-- On lowercase hexadecimal digest text the pairwise conversion agrees
with the specification-side denotation. -/
theorem hexPairs_denote :
    ∀ hs : List Nat, (∀ c ∈ hs, isLowerHexDigit c = true) →
      hexPairs hs = specHexDenote hs
  | [], _ => rfl
  | [_], _ => rfl
  | c0 :: c1 :: rest, h => by
      have h0 : isLowerHexDigit c0 = true := h c0 (by simp)
      have h1 : isLowerHexDigit c1 = true := h c1 (by simp)
      show hexStep (hexStep 0 c0) c1 :: hexPairs rest =
        (16 * specHexVal c0 + specHexVal c1) :: specHexDenote rest
      rw [hexStep_pair c0 c1 h0 h1,
        hexPairs_denote rest (fun c hc => h c (by simp [hc]))]

theorem hexPairs_length :
    ∀ hs : List Nat, (hexPairs hs).length = hs.length / 2
  | [] => by simp [hexPairs]
  | [_] => by simp [hexPairs]
  | _ :: _ :: rest => by
      show (hexPairs rest).length + 1 = (rest.length + 1 + 1) / 2
      rw [hexPairs_length rest]
      omega

/-! ### Helper lemmas about the verification loop -/

/-- The arguments of the in-loop `PrintProgress` calls for `count` completed
iterations starting at index `idx` over a manifest of `total` entries. -/
def progressList : Nat → Nat → Nat → List (Nat × Nat)
  | _, 0, _ => []
  | idx, n + 1, total => (idx, total) :: progressList (idx + 1) n total

/-- The failure line one entry contributes, if any. -/
def failLineOf (env : Env) (e : HashEntry) : Option FailMessage :=
  let sp := processEntry env e
  if EFI_ERROR sp.1 = true then some (renderFail sp.1 sp.2) else none

/-- The value of the `Status` variable after a list of entries has been
processed, starting from `d`: each completed iteration overwrites it with
the entry's status. -/
def lastStatusOf (env : Env) : List HashEntry → Nat → Nat
  | [], d => d
  | e :: rest, _ => lastStatusOf env rest (processEntry env e).1

/-- Closed form of the loop result over a segment of entries that is
processed without a cancellation break. -/
def noCancelResult (env : Env) (total idx : Nat) (es : List HashEntry)
    (st : RunSummary) : RunSummary :=
  { processed := idx + es.length
    numFailed := st.numFailed + es.countP (entryFails env)
    lastStatus := lastStatusOf env es st.lastStatus
    cancelled := st.cancelled
    outcomes := st.outcomes ++ es.map (entryOut env)
    progressCalls := st.progressCalls ++ progressList idx es.length total
    failLines := st.failLines ++ es.filterMap (failLineOf env) }

theorem noCancelResult_cons (env : Env) (total idx : Nat) (e : HashEntry)
    (es : List HashEntry) (st : RunSummary) :
    noCancelResult env total idx (e :: es) st =
      noCancelResult env total (idx + 1) es (stepSummary env idx e total st) := by
  by_cases hf : EFI_ERROR (processEntry env e).1 = true <;>
    simp [noCancelResult, stepSummary, entryOut, entryFails, failLineOf,
      progressList, lastStatusOf, List.countP_cons, List.filterMap_cons, hf,
      RunSummary.mk.injEq] <;>
    omega

/-- A run segment during which the keystroke poll never fires is processed
to the end and produces the closed-form summary. -/
theorem go_noCancel (env : Env) (total : Nat) :
    ∀ (es : List HashEntry) (idx : Nat) (st : RunSummary),
      st.processed = idx →
      (∀ j, j < es.length → env.keyAvail (idx + j) = false) →
      go env total idx es st = noCancelResult env total idx es st := by
  intro es
  induction es with
  | nil =>
      intro idx st hp _
      cases st
      simp only [RunSummary.processed] at hp
      simp [go, noCancelResult, progressList, lastStatusOf, hp]
  | cons e rest ih =>
      intro idx st hp hk
      have hk0 : env.keyAvail idx = false := by
        have := hk 0 (by simp)
        simpa using this
      rw [go, if_neg (by simp [hk0])]
      rw [ih (idx + 1) (stepSummary env idx e total st) rfl
        (fun j hj => by
          have := hk (j + 1) (by simpa using Nat.succ_lt_succ hj)
          simpa [Nat.add_assoc, Nat.add_comm 1 j] using this)]
      rw [noCancelResult_cons]

/-- A run during which the keystroke poll first fires at the check opening
iteration `m` breaks there: the first `m` entries are processed, the
summary is their closed form with the cancelled flag set. -/
theorem go_cancel (env : Env) (total : Nat) :
    ∀ (m : Nat) (es : List HashEntry) (idx : Nat) (st : RunSummary),
      st.processed = idx → m < es.length →
      (∀ j, j < m → env.keyAvail (idx + j) = false) →
      env.keyAvail (idx + m) = true →
      go env total idx es st =
        { noCancelResult env total idx (es.take m) st with cancelled := true } := by
  intro m
  induction m with
  | zero =>
      intro es idx st hp hm _ hkey
      cases es with
      | nil => simp at hm
      | cons e rest =>
          cases st
          simp only [RunSummary.processed] at hp
          rw [go, if_pos (by simpa using hkey)]
          simp [noCancelResult, progressList, lastStatusOf, hp]
  | succ m ih =>
      intro es idx st hp hm hks hkey
      cases es with
      | nil => simp at hm
      | cons e rest =>
          have hk0 : env.keyAvail idx = false := by
            have := hks 0 (by omega)
            simpa using this
          rw [go, if_neg (by simp [hk0])]
          rw [ih rest (idx + 1) (stepSummary env idx e total st) rfl
            (by simpa using Nat.lt_of_succ_lt_succ hm)
            (fun j hj => by
              have := hks (j + 1) (by omega)
              simpa [Nat.add_assoc, Nat.add_comm 1 j] using this)
            (by
              have : idx + (m + 1) = idx + 1 + m := by omega
              rw [← this]
              exact hkey)]
          have : (e :: rest).take (m + 1) = e :: rest.take m := by simp
          rw [this, noCancelResult_cons]

/-- The verification loop, when the keystroke poll never fires, in closed
form. -/
theorem runLoop_noCancel (env : Env) (entries : List HashEntry)
    (hk : ∀ j, j < entries.length → env.keyAvail j = false) :
    runLoop env entries =
      noCancelResult env entries.length 0 entries initSummary := by
  rw [runLoop]
  exact go_noCancel env entries.length entries 0 initSummary rfl
    (fun j hj => by simpa using hk j hj)

/-- The verification loop, when the keystroke poll first fires at the check
opening iteration `m < N`, in closed form. -/
theorem runLoop_cancel (env : Env) (entries : List HashEntry) (m : Nat)
    (hm : m < entries.length)
    (hks : ∀ j, j < m → env.keyAvail j = false)
    (hkey : env.keyAvail m = true) :
    runLoop env entries =
      { noCancelResult env entries.length 0 (entries.take m) initSummary with
          cancelled := true } := by
  rw [runLoop]
  exact go_cancel env entries.length m entries 0 initSummary rfl hm
    (fun j hj => by simpa using hks j hj) (by simpa using hkey)

/-- Well-formedness of the collaborator statuses: `Utf8ToUcs2` and
`HashFile` return either `EFI_SUCCESS` or a genuine EFI error (no warning
statuses), as the gnu-efi implementations behind them do. -/
def wfStatuses (env : Env) : Prop :=
  (∀ p, (env.utf8ToUcs2 p).1 = 0 ∨ EFI_ERROR (env.utf8ToUcs2 p).1 = true) ∧
  (∀ p, (env.hashFile p).1 = 0 ∨ EFI_ERROR (env.hashFile p).1 = true)

theorem EFI_ERROR_ne_zero {s : Nat} (h : EFI_ERROR s = true) : s ≠ 0 := by
  simp only [EFI_ERROR, decide_eq_true_eq] at h
  omega

theorem processEntry_status_wf (env : Env) (hwf : wfStatuses env)
    (e : HashEntry) :
    (processEntry env e).1 = 0 ∨ EFI_ERROR (processEntry env e).1 = true := by
  by_cases hu : EFI_ERROR (env.utf8ToUcs2 e.path).1 = true
  · right
    rw [processEntry, if_pos hu]
    exact hu
  · by_cases hc : (env.hashFile (env.utf8ToUcs2 e.path).2).1 = 0 ∧
        (env.hashFile (env.utf8ToUcs2 e.path).2).2 ≠ hashToBytes e.hash
    · right
      rw [processEntry, if_neg hu, if_pos hc]
      exact (by decide : EFI_ERROR EFI_CRC_ERROR = true)
    · rw [processEntry, if_neg hu, if_neg hc]
      exact hwf.2 (env.utf8ToUcs2 e.path).2

/-- Invariant relating `Status` and `NumFailed` along the loop: the status
is success or an error, and an error status means the entry that produced
it was counted, so `NumFailed` is positive. -/
def statusInv (st : RunSummary) : Prop :=
  (st.lastStatus = 0 ∨ EFI_ERROR st.lastStatus = true) ∧
    (EFI_ERROR st.lastStatus = true → 1 ≤ st.numFailed)

theorem go_statusInv (env : Env) (hwf : wfStatuses env) (total : Nat) :
    ∀ (es : List HashEntry) (idx : Nat) (st : RunSummary),
      statusInv st → statusInv (go env total idx es st) := by
  intro es
  induction es with
  | nil => intro idx st h; exact h
  | cons e rest ih =>
      intro idx st h
      rw [go]
      by_cases hk : env.keyAvail idx = true
      · rw [if_pos hk]
        exact ⟨h.1, h.2⟩
      · rw [if_neg hk]
        refine ih (idx + 1) _ ?_
        refine ⟨processEntry_status_wf env hwf e, ?_⟩
        intro herr
        have herr2 : EFI_ERROR (processEntry env e).1 = true := herr
        have hnf : (stepSummary env idx e total st).numFailed =
            st.numFailed + 1 := by
          simp [stepSummary, herr2]
        omega

theorem runLoop_statusInv (env : Env) (hwf : wfStatuses env)
    (entries : List HashEntry) : statusInv (runLoop env entries) :=
  go_statusInv env hwf entries.length entries 0 initSummary
    ⟨Or.inl rfl, by intro h; simp [initSummary, EFI_ERROR] at h⟩

/-- Under well-formed collaborator statuses the adjusted status after the
loop is success exactly when no entry failed, and an EFI error exactly when
some entry failed. -/
theorem finalVerifyStatus_iff (env : Env) (hwf : wfStatuses env)
    (entries : List HashEntry) :
    (finalVerifyStatus (runLoop env entries) = 0 ↔
      (runLoop env entries).numFailed = 0) ∧
    (EFI_ERROR (finalVerifyStatus (runLoop env entries)) = true ↔
      (runLoop env entries).numFailed ≠ 0) := by
  have hinv := runLoop_statusInv env hwf entries
  rcases hinv with ⟨h1, h2⟩
  rw [finalVerifyStatus]
  rcases h1 with h0 | herr
  · by_cases hnf : (runLoop env entries).numFailed = 0
    · rw [if_neg (by simp [hnf]), h0]
      simp [hnf, EFI_ERROR]
    · rw [if_pos ⟨h0, hnf⟩]
      constructor
      · constructor
        · intro h; exact absurd h (by simp [EFI_CRC_ERROR])
        · intro h; exact absurd h hnf
      · simp [hnf, EFI_CRC_ERROR, EFI_ERROR]
  · have hne : (runLoop env entries).lastStatus ≠ 0 := EFI_ERROR_ne_zero herr
    rw [if_neg (by intro h; exact hne h.1)]
    have hnf := h2 herr
    constructor
    · constructor
      · intro h; exact absurd h hne
      · intro h; omega
    · simp [herr]
      omega

theorem exitTail_fst (env : ExitEnv) (s : Nat) (ev : List ExitEvent) :
    (exitTail env s ev).1 = s := by
  rw [exitTail]
  split
  · rfl
  · split <;> rfl

/-! ### Concrete instances used by witnesses and counterexamples -/

/-- A digest text of 32 ASCII `0` characters, denoting the all-zero digest. -/
def zeroHash : List Nat := List.replicate 32 48

/-- Entry with path `a`. -/
def entryA : HashEntry := { hash := zeroHash, path := [97] }

/-- Entry with path `b`. -/
def entryB : HashEntry := { hash := zeroHash, path := [98] }

/-- Entry with path `c`. -/
def entryC : HashEntry := { hash := zeroHash, path := [99] }

/-- No keystrokes, identity path conversion, every file hashes to the
all-zero digest (so every `zeroHash` entry passes). -/
def envAllPass : Env :=
  { keyAvail := fun _ => false
    utf8ToUcs2 := fun p => (0, p)
    hashFile := fun _ => (0, List.replicate 16 0) }

/-- No keystrokes, identity path conversion, `HashFile` fails with
`EFI_NOT_FOUND` on every file (nonexistent files). -/
def envUnreadable : Env :=
  { keyAvail := fun _ => false
    utf8ToUcs2 := fun p => (0, p)
    hashFile := fun _ => (EFI_NOT_FOUND, []) }

/-- No keystrokes, identity path conversion, every file hashes to sixteen
`0x01` bytes (a mismatch for `zeroHash` entries). -/
def envMismatch : Env :=
  { keyAvail := fun _ => false
    utf8ToUcs2 := fun p => (0, p)
    hashFile := fun _ => (0, List.replicate 16 1) }

/-- A keystroke becomes available from the check that opens iteration 1 on;
files pass otherwise. -/
def envCancelAt1 : Env :=
  { keyAvail := fun i => decide (1 ≤ i)
    utf8ToUcs2 := fun p => (0, p)
    hashFile := fun _ => (0, List.replicate 16 0) }

/-- Path conversion fails with `EFI_INVALID_PARAMETER` on every path. -/
def envBadPath : Env :=
  { keyAvail := fun _ => false
    utf8ToUcs2 := fun _ => (EFI_INVALID_PARAMETER, [])
    hashFile := fun _ => (0, List.replicate 16 0) }

/-- Entry whose stored path is the single DEL byte `0x7F`. -/
def entryDel : HashEntry := { hash := zeroHash, path := [127] }

/-- Test mode, chain load succeeds; the prompt key is `n` (never read in
test mode, since the prompt is skipped there). -/
def exitEnvTestMode : ExitEnv :=
  { isTestMode := true, promptKey := 110, loadImageStatus := 0
    startImageStatus := 0 }

/-- Interactive mode, the user answers `y`, chain load succeeds. -/
def exitEnvYes : ExitEnv :=
  { isTestMode := false, promptKey := 121, loadImageStatus := 0
    startImageStatus := 0 }

theorem mem_exitTail (env : ExitEnv) (s : Nat) (ev : List ExitEvent)
    (x : ExitEvent) (hx : x ∈ ev) : x ∈ (exitTail env s ev).2 := by
  rw [exitTail]
  split
  · exact List.mem_append_left _ hx
  · split
    · exact List.mem_append_left _ hx
    · exact hx

theorem loadAttempted_mem_chainEvents (env : ExitEnv) :
    ExitEvent.loadAttempted ∈ chainEvents env := by
  rw [chainEvents]
  split <;> simp

/-! ### Claim C1 -/

/-- Claim C1 counterexample: with one failed entry, test mode on and a
resolved chain-load target, the run reaches `gBS->LoadImage` and
`gBS->StartImage` — the chain load is attempted, contradicting the claim
that in test mode a failing run refuses and "never attempts to chain-load
the resolved target" (the `EFI_ERROR(Status) && !IsTestMode` guard at
boot.c:184 only skips the prompt in test mode, not the load). -/
theorem claim_C1_counterexample :
    (runLoop envUnreadable [entryA]).numFailed = 1 ∧
    exitEnvTestMode.isTestMode = true ∧
    ExitEvent.loadAttempted ∈
      (efiMainRun envUnreadable exitEnvTestMode [entryA] true).2 ∧
    ExitEvent.startAttempted ∈
      (efiMainRun envUnreadable exitEnvTestMode [entryA] true).2 := by
  decide

/-- Claim C1 (amended): if verification reports at least one failure and
the environment is in automated test mode, the program never prompts and
requests power-off without waiting for input; however, when a chain-load
target was resolved it still attempts the chain load (test mode skips only
the prompt, not the `LoadImage`/`StartImage` attempt). -/
theorem claim_C1_amended (env : Env) (exitEnv : ExitEnv)
    (entries : List HashEntry) (hasDevicePath : Bool)
    (ht : exitEnv.isTestMode = true)
    (_hf : 1 ≤ (runLoop env entries).numFailed) :
    ExitEvent.promptShown ∉ (efiMainRun env exitEnv entries hasDevicePath).2 ∧
    ExitEvent.shutdownRequested ∈
      (efiMainRun env exitEnv entries hasDevicePath).2 ∧
    ExitEvent.waitedForKey ∉ (efiMainRun env exitEnv entries hasDevicePath).2 ∧
    (hasDevicePath = true →
      ExitEvent.loadAttempted ∈
        (efiMainRun env exitEnv entries hasDevicePath).2) := by
  cases hasDevicePath with
  | false =>
      rw [efiMainRun, ExitProcess]
      simp [exitTail, ht]
  | true =>
      rw [efiMainRun, ExitProcess, if_pos rfl,
        if_neg (by rw [ht]; rintro ⟨_, h⟩; cases h)]
      by_cases hl : exitEnv.loadImageStatus = 0 <;>
        simp [exitTail, ht, chainEvents, hl]

/-- Claim C1 witness: the amended statement at the concrete failing run of
the counterexample inputs. -/
theorem claim_C1_witness :
    ExitEvent.promptShown ∉
      (efiMainRun envUnreadable exitEnvTestMode [entryA] true).2 ∧
    ExitEvent.shutdownRequested ∈
      (efiMainRun envUnreadable exitEnvTestMode [entryA] true).2 ∧
    ExitEvent.waitedForKey ∉
      (efiMainRun envUnreadable exitEnvTestMode [entryA] true).2 ∧
    (true = true → ExitEvent.loadAttempted ∈
      (efiMainRun envUnreadable exitEnvTestMode [entryA] true).2) :=
  claim_C1_amended envUnreadable exitEnvTestMode [entryA] true (by decide)
    (by decide)

/-! ### Claim C2 -/

/-- Claim C2 counterexample: a run with one hash mismatch, outside test
mode, with a resolved chain-load target: the user answers `y` at the
prompt, the chain load succeeds, and `ExitProcess` returns the
`StartImage` status `EFI_SUCCESS` — a success exit status despite a hash
failure, contradicting "any hash failure ... yields an error status". -/
theorem claim_C2_counterexample :
    (runLoop envMismatch [entryA]).numFailed = 1 ∧
    (efiMainRun envMismatch exitEnvYes [entryA] true).1 = 0 := by
  decide

/-- Claim C2 (amended): assuming the collaborators return success-or-error
statuses, the final exit status is a success if and only if either no
chain-load target existed and verification reported zero failures, or a
target existed, the chain load was actually attempted (zero failures, or
test mode, or the user answered `y`/`Y` at the prompt) and both the image
load and the image start returned success.  In particular a failing run
can still exit successfully through the prompt or test mode. -/
theorem claim_C2_amended (env : Env) (exitEnv : ExitEnv)
    (entries : List HashEntry) (hasDevicePath : Bool)
    (hwf : wfStatuses env) :
    (efiMainRun env exitEnv entries hasDevicePath).1 = 0 ↔
      ((hasDevicePath = false ∧ (runLoop env entries).numFailed = 0) ∨
       (hasDevicePath = true ∧
         ((runLoop env entries).numFailed = 0 ∨ exitEnv.isTestMode = true ∨
           exitEnv.promptKey = 121 ∨ exitEnv.promptKey = 89) ∧
         exitEnv.loadImageStatus = 0 ∧ exitEnv.startImageStatus = 0)) := by
  have hfi := finalVerifyStatus_iff env hwf entries
  have hchain : (exitTail exitEnv (chainStatus exitEnv)
      (chainEvents exitEnv)).1 = 0 ↔
      exitEnv.loadImageStatus = 0 ∧ exitEnv.startImageStatus = 0 := by
    rw [exitTail_fst, chainStatus]
    by_cases hl : exitEnv.loadImageStatus = 0
    · rw [if_pos hl]
      constructor
      · intro h; exact ⟨hl, h⟩
      · intro h; exact h.2
    · rw [if_neg hl]
      constructor
      · intro h; exact absurd h hl
      · intro h; exact absurd h.1 hl
  cases hasDevicePath with
  | false =>
      rw [efiMainRun, ExitProcess, if_neg (by simp), exitTail_fst, hfi.1]
      constructor
      · intro h; exact Or.inl ⟨rfl, h⟩
      · rintro (⟨_, h⟩ | ⟨h, _⟩)
        · exact h
        · cases h
  | true =>
      rw [efiMainRun, ExitProcess, if_pos rfl]
      by_cases hcond : EFI_ERROR (finalVerifyStatus (runLoop env entries)) = true ∧
          exitEnv.isTestMode = false
      · rw [if_pos hcond]
        have hnf : (runLoop env entries).numFailed ≠ 0 := hfi.2.mp hcond.1
        by_cases hkey : exitEnv.promptKey ≠ 121 ∧ exitEnv.promptKey ≠ 89
        · rw [if_pos hkey]
          have hne : finalVerifyStatus (runLoop env entries) ≠ 0 :=
            EFI_ERROR_ne_zero hcond.1
          constructor
          · intro h; exact absurd h hne
          · rintro (⟨h, _⟩ | ⟨_, hd, _⟩)
            · cases h
            · rcases hd with h | h | h | h
              · exact absurd h hnf
              · rw [hcond.2] at h; cases h
              · exact absurd h hkey.1
              · exact absurd h hkey.2
        · rw [if_neg hkey]
          have hk2 : exitEnv.promptKey = 121 ∨ exitEnv.promptKey = 89 := by
            by_cases h1 : exitEnv.promptKey = 121
            · exact Or.inl h1
            · by_cases h2 : exitEnv.promptKey = 89
              · exact Or.inr h2
              · exact absurd ⟨h1, h2⟩ hkey
          have : (exitTail exitEnv (chainStatus exitEnv)
              (ExitEvent.promptShown :: chainEvents exitEnv)).1 =
              (exitTail exitEnv (chainStatus exitEnv)
                (chainEvents exitEnv)).1 := by
            rw [exitTail_fst, exitTail_fst]
          rw [this, hchain]
          constructor
          · intro h
            refine Or.inr ⟨rfl, ?_, h.1, h.2⟩
            rcases hk2 with h' | h'
            · exact Or.inr (Or.inr (Or.inl h'))
            · exact Or.inr (Or.inr (Or.inr h'))
          · rintro (⟨h, _⟩ | ⟨_, _, hl, hs⟩)
            · cases h
            · exact ⟨hl, hs⟩
      · rw [if_neg hcond]
        rw [hchain]
        have hdisj : (runLoop env entries).numFailed = 0 ∨
            exitEnv.isTestMode = true := by
          by_cases htm : exitEnv.isTestMode = true
          · exact Or.inr htm
          · left
            by_cases herr : EFI_ERROR (finalVerifyStatus (runLoop env entries)) = true
            · exact absurd ⟨herr, by simpa using htm⟩ hcond
            · by_contra hnf
              exact herr (hfi.2.mpr hnf)
        constructor
        · intro h
          refine Or.inr ⟨rfl, ?_, h.1, h.2⟩
          rcases hdisj with h' | h'
          · exact Or.inl h'
          · exact Or.inr (Or.inl h')
        · rintro (⟨h, _⟩ | ⟨_, _, hl, hs⟩)
          · cases h
          · exact ⟨hl, hs⟩

/-- Claim C2 witness: the amended equivalence applied at the
counterexample's inputs, deriving the concrete success exit. -/
theorem claim_C2_witness :
    (efiMainRun envMismatch exitEnvYes [entryA] true).1 = 0 :=
  (claim_C2_amended envMismatch exitEnvYes [entryA] true
      ⟨fun _ => Or.inl rfl, fun _ => Or.inl rfl⟩).mpr
    (Or.inr ⟨rfl, Or.inr (Or.inr (Or.inl rfl)), rfl, rfl⟩)

/-! ### Claim C3 -/

/-- Claim C3: if the cancellation keystroke first becomes available after
entry `k` (0-indexed) has been processed — i.e. the polls opening
iterations `0..k` see no key and the poll at `k + 1` does — then the loop
stops at that entry boundary: the in-flight entry `k` completes, the exit
index (the reported processed count) is `k + 1`, outcomes are recorded
exactly for entries `0..k`, and `NumFailed` counts only those entries. -/
theorem claim_C3 (env : Env) (entries : List HashEntry) (k : Nat)
    (hk : k < entries.length)
    (h1 : ∀ i, i ≤ k → env.keyAvail i = false)
    (h2 : env.keyAvail (k + 1) = true) :
    (runLoop env entries).processed = k + 1 ∧
    (runLoop env entries).outcomes =
      (entries.take (k + 1)).map (entryOut env) ∧
    (runLoop env entries).numFailed =
      (entries.take (k + 1)).countP (entryFails env) := by
  by_cases hc : k + 1 < entries.length
  · rw [runLoop_cancel env entries (k + 1) hc
      (fun j hj => h1 j (by omega)) h2]
    refine ⟨?_, ?_, ?_⟩ <;>
      simp [noCancelResult, initSummary, List.length_take,
        Nat.min_eq_left (Nat.le_of_lt hc)]
  · have hlen : entries.length = k + 1 := by omega
    have htake : entries.take (k + 1) = entries := by
      rw [← hlen, List.take_length]
    rw [runLoop_noCancel env entries (fun j hj => h1 j (by omega))]
    refine ⟨?_, ?_, ?_⟩ <;>
      simp [noCancelResult, initSummary, htake, hlen]

/-- Claim C3 witness: three passing entries, the keystroke arrives after
entry 0 completes; the run processes exactly one entry. -/
theorem claim_C3_witness :
    (runLoop envCancelAt1 [entryA, entryB, entryC]).processed = 1 ∧
    (runLoop envCancelAt1 [entryA, entryB, entryC]).outcomes =
      ([entryA, entryB, entryC].take 1).map (entryOut envCancelAt1) ∧
    (runLoop envCancelAt1 [entryA, entryB, entryC]).numFailed =
      ([entryA, entryB, entryC].take 1).countP (entryFails envCancelAt1) :=
  claim_C3 envCancelAt1 [entryA, entryB, entryC] 0 (by decide) (by decide)
    (by decide)

/-! ### Claim C4 -/

/-- Claim C4: without cancellation, per-entry failures never stop the loop:
all `N` entries are processed (even when every one of them fails), each
entry's outcome is recorded in order, `NumFailed` equals the number of
non-passed outcomes (each failure counted exactly once), and an entry whose
file cannot be read (its converted path hashes to an error status, e.g.
`EFI_NOT_FOUND` for a nonexistent file) gets a failed outcome carrying that
underlying read-error status — the spec's `FileUnreadable(reason)` — while
the remaining entries are still processed. -/
theorem claim_C4 (env : Env) (entries : List HashEntry)
    (hnc : ∀ i, i < entries.length → env.keyAvail i = false) :
    (runLoop env entries).processed = entries.length ∧
    (runLoop env entries).outcomes = entries.map (entryOut env) ∧
    (runLoop env entries).numFailed =
      (runLoop env entries).outcomes.countP Outcome.isFailed ∧
    (∀ i, (hi : i < entries.length) →
      EFI_ERROR (env.utf8ToUcs2 (entries.get ⟨i, hi⟩).path).1 = false →
      EFI_ERROR (env.hashFile
        ((env.utf8ToUcs2 (entries.get ⟨i, hi⟩).path).2)).1 = true →
      (runLoop env entries).outcomes[i]? =
        some (Outcome.failed
          (env.hashFile ((env.utf8ToUcs2 (entries.get ⟨i, hi⟩).path).2)).1
          ((env.utf8ToUcs2 (entries.get ⟨i, hi⟩).path).2))) := by
  rw [runLoop_noCancel env entries hnc]
  have houtm : (noCancelResult env entries.length 0 entries
      initSummary).outcomes = entries.map (entryOut env) := by
    simp [noCancelResult, initSummary]
  refine ⟨by simp [noCancelResult, initSummary], houtm, ?_, ?_⟩
  · rw [houtm]
    have hcp : ∀ es : List HashEntry,
        (es.map (entryOut env)).countP Outcome.isFailed =
          es.countP (entryFails env) := by
      intro es
      induction es with
      | nil => rfl
      | cons e rest ih =>
          rw [List.map_cons, List.countP_cons, List.countP_cons, ih]
          have : Outcome.isFailed (entryOut env e) = entryFails env e := by
            rw [entryOut, entryFails]
            by_cases hf : EFI_ERROR (processEntry env e).1 = true
            · rw [if_pos hf, hf]
              rfl
            · rw [if_neg hf]
              have : EFI_ERROR (processEntry env e).1 = false := by
                revert hf
                cases EFI_ERROR (processEntry env e).1 <;> simp
              rw [this]
              rfl
          rw [this]
    rw [hcp]
    simp [noCancelResult, initSummary]
  · intro i hi hu hh
    rw [houtm, List.getElem?_map, List.getElem?_eq_getElem hi]
    have hpe : processEntry env (entries.get ⟨i, hi⟩) =
        ((env.hashFile ((env.utf8ToUcs2 (entries.get ⟨i, hi⟩).path).2)).1,
         (env.utf8ToUcs2 (entries.get ⟨i, hi⟩).path).2) := by
      rw [processEntry, if_neg (by rw [hu]; exact Bool.false_ne_true),
        if_neg (fun hcj => EFI_ERROR_ne_zero hh hcj.1)]
    show some (entryOut env (entries.get ⟨i, hi⟩)) = _
    rw [entryOut, hpe]
    rw [if_pos hh]

/-- Claim C4 witness: a two-entry manifest whose every file is nonexistent
(`HashFile` fails with `EFI_NOT_FOUND`): both entries are processed, both
counted, and entry 0 is recorded as failed with the underlying read error. -/
theorem claim_C4_witness :
    (runLoop envUnreadable [entryA, entryB]).processed = 2 ∧
    (runLoop envUnreadable [entryA, entryB]).numFailed =
      (runLoop envUnreadable [entryA, entryB]).outcomes.countP
        Outcome.isFailed ∧
    (runLoop envUnreadable [entryA, entryB]).outcomes[0]? =
      some (Outcome.failed EFI_NOT_FOUND [97]) := by
  have h := claim_C4 envUnreadable [entryA, entryB] (by decide)
  exact ⟨h.1, h.2.2.1, h.2.2.2 0 (by decide) (by decide) (by decide)⟩

/-! ### Claim C5 -/

/-- Claim C5 counterexample: the digest text of 32 uppercase `A`
characters consists of valid hexadecimal digits (case-insensitively
denoting sixteen `0xAA` bytes), yet the conversion loop of `efi_main`
computes sixteen `0x11` bytes: the expression `c >= 'a' ? (c - 'a' + 0x0A)
: c - '0'` (boot.c:451) treats every uppercase letter as `c - '0'`
(17 for `A`), so the decode does not produce the denoted value. -/
theorem claim_C5_counterexample :
    (List.replicate 32 65).all isHexDigitSpec = true ∧
    hashToBytes (List.replicate 32 65) = List.replicate 16 17 ∧
    specHexDenote (List.replicate 32 65) = List.replicate 16 170 ∧
    hashToBytes (List.replicate 32 65) ≠
      specHexDenote (List.replicate 32 65) := by
  decide

/-- Claim C5 (amended): for every 32-character digest text consisting of
lowercase hexadecimal digits, the hexascii-to-binary conversion of the
verification loop produces exactly the 16-byte digest value the characters
denote, and it is total (it cannot fail); uppercase digits, though declared
acceptable by the spec, are mis-decoded (see the counterexample). -/
theorem claim_C5_amended (hs : List Nat) (h32 : hs.length = 32)
    (hlow : ∀ c ∈ hs, isLowerHexDigit c = true) :
    hashToBytes hs = specHexDenote hs ∧ (hashToBytes hs).length = 16 := by
  have hb := hashToBytes_eq_hexPairs hs h32
  constructor
  · rw [hb, hexPairs_denote hs hlow]
  · rw [hb, hexPairs_length hs, h32]

/-- Claim C5 witness: the amended statement evaluated on the all-`a`
digest text. -/
theorem claim_C5_witness :
    hashToBytes (List.replicate 32 97) =
      specHexDenote (List.replicate 32 97) :=
  (claim_C5_amended (List.replicate 32 97) (by decide) (by decide)).1

/-! ### Claim C6 -/

/-- Claim C6: when a file converts and hashes successfully but the computed
digest differs from the expected one, the entry is classified as a hash
mismatch — status `EFI_CRC_ERROR`, rendered with the dedicated
"MD5 Checksum Error" message (`FailMessage.checksum`), which no status
whose masked code differs from 27 (in particular any plain read error)
ever receives — and when the digests agree the entry passes and is not
counted as failed. -/
theorem claim_C6 (env : Env) (e : HashEntry) (h : List Nat)
    (hk : env.keyAvail 0 = false)
    (hu : EFI_ERROR (env.utf8ToUcs2 e.path).1 = false)
    (hh : env.hashFile (env.utf8ToUcs2 e.path).2 = (0, h)) :
    (h ≠ hashToBytes e.hash →
      entryOut env e =
        Outcome.failed EFI_CRC_ERROR (env.utf8ToUcs2 e.path).2 ∧
      renderFail EFI_CRC_ERROR (env.utf8ToUcs2 e.path).2 =
        FailMessage.checksum (truncate80 (env.utf8ToUcs2 e.path).2) ∧
      (runLoop env [e]).numFailed = 1 ∧
      (runLoop env [e]).failLines =
        [FailMessage.checksum (truncate80 (env.utf8ToUcs2 e.path).2)]) ∧
    (h = hashToBytes e.hash →
      entryOut env e = Outcome.passed ∧
      (runLoop env [e]).numFailed = 0) ∧
    (∀ s p, s &&& 0x7FFFFFFF ≠ 27 →
      renderFail s p ≠ FailMessage.checksum (truncate80 p)) := by
  have hmask : EFI_CRC_ERROR &&& 0x7FFFFFFF = 27 := by decide
  have hrl : runLoop env [e] =
      noCancelResult env 1 0 [e] initSummary := by
    apply runLoop_noCancel
    intro j hj
    have : j = 0 := by simpa using hj
    rw [this]
    exact hk
  have hce : EFI_ERROR EFI_CRC_ERROR = true := by decide
  have h0 : EFI_ERROR 0 = false := by decide
  refine ⟨?_, ?_, ?_⟩
  · intro hne
    have hpe : processEntry env e = (EFI_CRC_ERROR, (env.utf8ToUcs2 e.path).2) := by
      rw [processEntry, if_neg (by rw [hu]; exact Bool.false_ne_true), hh,
        if_pos ⟨rfl, hne⟩]
    have hout : entryOut env e =
        Outcome.failed EFI_CRC_ERROR (env.utf8ToUcs2 e.path).2 := by
      simp [entryOut, hpe, hce]
    have hrf : renderFail EFI_CRC_ERROR (env.utf8ToUcs2 e.path).2 =
        FailMessage.checksum (truncate80 (env.utf8ToUcs2 e.path).2) := by
      rw [renderFail, if_pos hmask]
    refine ⟨hout, hrf, ?_, ?_⟩
    · rw [hrl]
      have hef : entryFails env e = true := by
        simp [entryFails, hpe, hce]
      simp [noCancelResult, initSummary, List.countP_cons, hef]
    · rw [hrl]
      have hfl : failLineOf env e =
          some (FailMessage.checksum (truncate80 (env.utf8ToUcs2 e.path).2)) := by
        simp [failLineOf, hpe, hce, hrf]
      simp [noCancelResult, initSummary, List.filterMap_cons, hfl]
  · intro heq
    have hpe : processEntry env e = (0, (env.utf8ToUcs2 e.path).2) := by
      rw [processEntry, if_neg (by rw [hu]; exact Bool.false_ne_true), hh,
        if_neg (fun hcj => hcj.2 heq)]
    have hout : entryOut env e = Outcome.passed := by
      simp [entryOut, hpe, h0]
    refine ⟨hout, ?_⟩
    rw [hrl]
    have hef : entryFails env e = false := by
      simp [entryFails, hpe, h0]
    simp [noCancelResult, initSummary, List.countP_cons, hef]
  · intro s p hm
    rw [renderFail, if_neg hm]
    intro hcontra
    cases hcontra

/-- Claim C6 witness: a concrete mismatch — the file hashes to sixteen
`0x01` bytes against the all-zero expected digest — classified and counted
as a checksum failure. -/
theorem claim_C6_witness :
    entryOut envMismatch entryA = Outcome.failed EFI_CRC_ERROR [97] ∧
    (runLoop envMismatch [entryA]).numFailed = 1 ∧
    (runLoop envMismatch [entryA]).failLines =
      [FailMessage.checksum (truncate80 [97])] := by
  have h := (claim_C6 envMismatch entryA (List.replicate 16 1) rfl (by decide)
    rfl).1 (by decide)
  exact ⟨h.1, h.2.2.1, h.2.2.2⟩

/-! ### Claim C7 -/

/-- Claim C7: outside test mode, with at least one failure (an error
status) and a resolved chain-load target, `ExitProcess` shows the prompt
and blocks until a keystroke arrives (the decision is a function of that
single keystroke); `y` or `Y` proceeds to the `LoadImage` attempt, and any
other key returns the incoming error status at once without attempting the
load. -/
theorem claim_C7 (env : ExitEnv) (status : Nat)
    (ht : env.isTestMode = false) (hs : EFI_ERROR status = true) :
    ExitEvent.promptShown ∈ (ExitProcess env status true).2 ∧
    ((env.promptKey = 121 ∨ env.promptKey = 89) →
      ExitEvent.loadAttempted ∈ (ExitProcess env status true).2) ∧
    ((env.promptKey ≠ 121 ∧ env.promptKey ≠ 89) →
      ExitProcess env status true = (status, [ExitEvent.promptShown]) ∧
      ExitEvent.loadAttempted ∉ (ExitProcess env status true).2) := by
  rw [ExitProcess, if_pos rfl, if_pos ⟨hs, ht⟩]
  by_cases hkey : env.promptKey ≠ 121 ∧ env.promptKey ≠ 89
  · rw [if_pos hkey]
    refine ⟨by simp, ?_, ?_⟩
    · rintro (h | h)
      · exact absurd h hkey.1
      · exact absurd h hkey.2
    · intro _
      exact ⟨rfl, by simp⟩
  · rw [if_neg hkey]
    refine ⟨?_, ?_, ?_⟩
    · exact mem_exitTail env _ _ _ (by simp)
    · intro _
      exact mem_exitTail env _ _ _
        (List.mem_cons_of_mem _ (loadAttempted_mem_chainEvents env))
    · intro h
      exact absurd h hkey

/-- Claim C7 witness: the user answers `y` on a concrete failing status;
the prompt is shown and the load is attempted. -/
theorem claim_C7_witness :
    ExitEvent.promptShown ∈ (ExitProcess exitEnvYes EFI_CRC_ERROR true).2 ∧
    ExitEvent.loadAttempted ∈ (ExitProcess exitEnvYes EFI_CRC_ERROR true).2 := by
  have h := claim_C7 exitEnvYes EFI_CRC_ERROR rfl (by decide)
  exact ⟨h.1, h.2.1 (Or.inl rfl)⟩

/-! ### Claim C8 -/

/-- Claim C8 counterexample: the DEL byte `0x7F` lies outside the printable
ASCII range (`0x20`-`0x7E`), yet the fallback rendering built when
`Utf8ToUcs2` fails keeps it unchanged instead of replacing it with the
`'?'` placeholder: the filter at boot.c:462 only replaces bytes below
`0x20` (or, as a signed `CHAR8`, at or above `0x80`), so "every byte
outside the printable ASCII range is replaced" is false. -/
theorem claim_C8_counterexample :
    (runLoop envBadPath [entryDel]).outcomes =
      [Outcome.failed EFI_INVALID_PARAMETER [127]] ∧
    fallbackPath [127] = [127] ∧
    ¬(32 ≤ 127 ∧ 127 ≤ 126) ∧ (127 : Nat) ≠ 63 := by
  decide

theorem fallbackChar_eq (b : Nat) (hb : b < 256) :
    fallbackChar b = if b < 32 ∨ 128 ≤ b then 63 else b := by
  simp only [fallbackChar]
  split_ifs <;> omega

/-- Claim C8 (amended): when `Utf8ToUcs2` fails on an entry's stored path,
the run records a failed outcome carrying the conversion status (the
spec's `PathEncodingFailed`) and the fallback rendering of the path, and
continues with the remaining entries; in the fallback rendering every byte
below `0x20` or at/above `0x80` is replaced by the `'?'` placeholder,
while bytes `0x20`-`0x7F` — including the non-printable DEL `0x7F` — are
kept. -/
theorem claim_C8_amended (env : Env) (entries : List HashEntry) (i : Nat)
    (hi : i < entries.length)
    (hnc : ∀ j, j < entries.length → env.keyAvail j = false)
    (hbytes : ∀ b ∈ (entries.get ⟨i, hi⟩).path, b < 256)
    (hu : EFI_ERROR (env.utf8ToUcs2 (entries.get ⟨i, hi⟩).path).1 = true) :
    (runLoop env entries).processed = entries.length ∧
    (runLoop env entries).outcomes[i]? =
      some (Outcome.failed (env.utf8ToUcs2 (entries.get ⟨i, hi⟩).path).1
        (fallbackPath (entries.get ⟨i, hi⟩).path)) ∧
    fallbackPath (entries.get ⟨i, hi⟩).path =
      (entries.get ⟨i, hi⟩).path.map
        (fun b => if b < 32 ∨ 128 ≤ b then 63 else b) := by
  rw [runLoop_noCancel env entries hnc]
  have houtm : (noCancelResult env entries.length 0 entries
      initSummary).outcomes = entries.map (entryOut env) := by
    simp [noCancelResult, initSummary]
  refine ⟨by simp [noCancelResult, initSummary], ?_, ?_⟩
  · rw [houtm, List.getElem?_map, List.getElem?_eq_getElem hi]
    have hpe : processEntry env (entries.get ⟨i, hi⟩) =
        ((env.utf8ToUcs2 (entries.get ⟨i, hi⟩).path).1,
         fallbackPath (entries.get ⟨i, hi⟩).path) := by
      rw [processEntry, if_pos hu]
    show some (entryOut env (entries.get ⟨i, hi⟩)) = _
    rw [entryOut, hpe, if_pos hu]
  · rw [fallbackPath]
    exact List.map_congr_left (fun b hbm => fallbackChar_eq b (hbytes b hbm))

/-- Claim C8 witness: the amended statement at the concrete one-entry run
whose path is the DEL byte. -/
theorem claim_C8_witness :
    (runLoop envBadPath [entryDel]).processed = 1 ∧
    (runLoop envBadPath [entryDel]).outcomes[0]? =
      some (Outcome.failed EFI_INVALID_PARAMETER (fallbackPath [127])) ∧
    fallbackPath [127] =
      [127].map (fun b => if b < 32 ∨ 128 ≤ b then 63 else b) := by
  have h := claim_C8_amended envBadPath [entryDel] 0 (by decide) (by decide)
    (by decide) (by decide)
  exact ⟨h.1, h.2.1, h.2.2⟩

/-! ### Claim C9 -/

/-- Representative console geometry: `boot.h` (not among the provided
sources) fixes `COLS_MIN`, `ROWS_MIN`, `STRING_MAX` and `MARGIN_H`; any
values with `colsMin ≤ cols < stringMax`, `rowsMin ≤ rows` and a message
that fits exhibit the same behavior, since they only feed the early-out
guards. -/
def geomDefault : Geometry :=
  { colsMin := 50, rowsMin := 20, stringMax := 514, marginH := 2 }

/-- An ordinary 80×25 text console. -/
def conDefault : ConsoleDims := { cols := 80, rows := 25 }

/-- The progress-bar state armed by the `InitProgress(L"Media
verification", Console.Rows / 2 - 3)` call of `efi_main` (boot.c:429);
the message is 18 characters long. -/
def pvArmed : ProgressVars :=
  InitProgress geomDefault false conDefault 18 (25 / 2 - 3)
    { progressLastCol := 0, progressInit := false, progressYPos := 0
      progressPPos := 0 }

/-- Claim C9: the call sequence is as claimed — progress is reported before
each entry and once more after the loop, so even an empty manifest gets
the single final report `(0, 0)` with `processed = 0` and `failed = 0` —
but that final call is NOT well-defined outside test mode: with the
progress bar armed, `PrintProgress(0, 0)` evaluates
`(CurValue * 1000) / MaxValue` with `MaxValue = 0`, a division by zero
(undefined behavior, modelled as `none`).  The claim's "rather than an
error or an undefined computation" is exactly what fails, making this a
code bug relative to the spec (test mode masks it because the guard at
boot.c:327 returns early). -/
theorem claim_C9 :
    (runLoop envAllPass []).processed = 0 ∧
    (runLoop envAllPass []).numFailed = 0 ∧
    fullProgressCalls envAllPass [] = [(0, 0)] ∧
    pvArmed.progressInit = true ∧
    PrintProgress geomDefault false conDefault pvArmed 0 0 = none := by
  decide

/-! ### Claim C10 -/

/-- Claim C10: `PrintFailedEntry` truncates an (already converted) display
path longer than 80 characters in place to exactly 80 characters before
rendering, leaves paths of at most 80 characters unchanged, and a call
with a non-error status or a null path changes nothing and displays
nothing. -/
theorem claim_C10 (status : Nat) (p : List Nat) :
    PrintFailedEntry status none = (none, none) ∧
    (EFI_ERROR status = false →
      PrintFailedEntry status (some p) = (some p, none)) ∧
    (EFI_ERROR status = true → 80 < p.length →
      (PrintFailedEntry status (some p)).1 = some (p.take 80) ∧
      (p.take 80).length = 80) ∧
    (EFI_ERROR status = true → p.length ≤ 80 →
      (PrintFailedEntry status (some p)).1 = some p) := by
  refine ⟨rfl, ?_, ?_, ?_⟩
  · intro hs
    show (if EFI_ERROR status = true then
        (some (truncate80 p), some (renderFail status p))
      else (some p, none)) = (some p, none)
    rw [if_neg (by rw [hs]; exact Bool.false_ne_true)]
  · intro hs hl
    constructor
    · show (if EFI_ERROR status = true then
          (some (truncate80 p), some (renderFail status p))
        else (some p, none)).1 = some (p.take 80)
      rw [if_pos hs, truncate80, if_pos hl]
    · rw [List.length_take]
      omega
  · intro hs hl
    show (if EFI_ERROR status = true then
        (some (truncate80 p), some (renderFail status p))
      else (some p, none)).1 = some p
    rw [if_pos hs, truncate80, if_neg (by omega)]

/-- Claim C10 witness: a 100-character path is cut to its first 80
characters by a failing call. -/
theorem claim_C10_witness :
    (PrintFailedEntry EFI_CRC_ERROR (some (List.replicate 100 97))).1 =
      some ((List.replicate 100 97).take 80) ∧
    ((List.replicate 100 97).take 80).length = 80 :=
  (claim_C10 EFI_CRC_ERROR (List.replicate 100 97)).2.2.1 (by decide)
    (by decide)
